import Mathlib

/-!
# Verification of the billing-management repository

A shallow embedding of the invoice total calculator
(`src/components/invoices/InvoiceForm.tsx`, found as `src/unnamed/part_001`),
the record store (`src/services/storage.services.ts`), and the bulk-import
handler (`src/App.tsx`), together with theorems settling the specification
claims about them.

Modelling conventions:
* JavaScript numbers are modelled as `ℚ` (the arithmetic identities at stake
  are structural, not float-specific); timestamps as `Int` (milliseconds);
  ids and invoice numbers as `String`.
* A `localforage` store instance is an association list `List (String × α)`
  keyed by record id; `setItem` is an upsert, `removeItem` filters the key
  out, `keys` is the key list, iteration order is list order.
* `async` methods that catch driver faults are modelled twice: a pure model
  of the fault-free execution (used by most claims) and an explicit
  fault-schedule model (`FaultyDB`) for the error-handling claim.
-/

namespace Billing

/-! ## Invoice total calculator (`InvoiceForm.tsx`)

The form watches a list of items `{description, quantity, price, taxRate,
total}`, a discount value, a discount type (`'percentage' | 'fixed'`), a
boolean `useGlobalTax` mode and a global `taxRate`.  Only the fields the
arithmetic reads are modelled. -/

/-- One invoice line item as read by the calculator: `item.quantity`,
`item.price`, `item.taxRate` (the `|| 0` fallbacks in the source guard
`undefined`, which cannot arise here). -/
structure InvItem where
  quantity : ℚ
  price : ℚ
  taxRate : ℚ
deriving DecidableEq, Repr

/-- The `discountType` form field: `'percentage' | 'fixed'`. -/
inductive DiscountType where
  | percentage
  | fixed
deriving DecidableEq, Repr

/-- `calculateSubtotal`: `items.reduce((sum, item) => sum + qty*price, 0)`. -/
def calculateSubtotal (items : List InvItem) : ℚ :=
  items.foldl (fun sum item => sum + item.quantity * item.price) 0

/-- The effective tax rate of an item:
`useGlobalTax ? watchGlobalTaxRate : (item.taxRate || 0)`. -/
def effectiveTaxRate (useGlobalTax : Bool) (globalTaxRate : ℚ) (item : InvItem) : ℚ :=
  if useGlobalTax then globalTaxRate else item.taxRate

/-- `calculateTotalTax`: sums `itemSubtotal * (taxRate / 100)` over the
items, with the rate selected by the global-tax mode flag. -/
def calculateTotalTax (useGlobalTax : Bool) (globalTaxRate : ℚ)
    (items : List InvItem) : ℚ :=
  items.foldl
    (fun sum item =>
      sum + item.quantity * item.price *
        (effectiveTaxRate useGlobalTax globalTaxRate item / 100)) 0

/-- `calculateDiscount`: percentage of the subtotal, or the fixed value. -/
def calculateDiscount (discountType : DiscountType) (discount : ℚ)
    (items : List InvItem) : ℚ :=
  match discountType with
  | .percentage => calculateSubtotal items * (discount / 100)
  | .fixed => discount

/-- `calculateGrandTotal`: `subtotal + totalTax - discount`. -/
def calculateGrandTotal (useGlobalTax : Bool) (globalTaxRate : ℚ)
    (discountType : DiscountType) (discount : ℚ) (items : List InvItem) : ℚ :=
  calculateSubtotal items + calculateTotalTax useGlobalTax globalTaxRate items
    - calculateDiscount discountType discount items

/-! ## Invoice-number strings (`getNextInvoiceNumber`)

`inv.invoiceNumber.match(/INV-(\d+)/)` searches the string left to right for
the literal `INV-` followed by at least one digit and captures the maximal
digit run; `parseInt` reads the captured digits in decimal. -/

/-- Decimal value of a digit list, as `parseInt` reads a digit string. -/
def parseDigits (ds : List Char) : Nat :=
  ds.foldl (fun n c => n * 10 + (c.toNat - ('0').toNat)) 0

/-- Try the regex `INV-(\d+)` at the head of the character list: the literal
`INV-` followed by one or more digits; returns the captured digit run. -/
def invMatchAt : List Char → Option (List Char)
  | 'I' :: 'N' :: 'V' :: '-' :: rest =>
    match rest.takeWhile Char.isDigit with
    | [] => none
    | ds => some ds
  | _ => none

/-- Regex search for `INV-(\d+)`: try each position left to right. -/
def invSearch : List Char → Option (List Char)
  | [] => none
  | c :: rest =>
    match invMatchAt (c :: rest) with
    | some ds => some ds
    | none => invSearch rest

/-- `inv.invoiceNumber.match(/INV-(\d+)/)` followed by `parseInt(match[1])`:
`some n` when the pattern matches with captured value `n`, `none` otherwise
(the source maps `none` to `0`). -/
def extractInvNumber? (s : String) : Option Nat :=
  (invSearch s.data).map parseDigits

/-- `match ? parseInt(match[1]) : 0` — the number contributed by one stored
invoice number. -/
def extractInvNumber (s : String) : Nat :=
  (extractInvNumber? s).getD 0

/-- `email.toLowerCase()`: JS simple case mapping, character by
character. -/
def lowercase (s : String) : String := String.mk (s.data.map Char.toLower)

/-- `String(n).padStart(5, '0')`. -/
def padStart5 (s : String) : String :=
  if s.length < 5 then String.mk (List.replicate (5 - s.length) '0') ++ s else s

/-- `Math.max(...numbers)` over a nonempty list, `0` when empty (the
`numbers.length > 0 ? Math.max(...numbers) : 0` step; the `filter(!isNaN)`
step keeps every element, because `parseInt` of a nonempty digit run is
never `NaN`). -/
def maxNumberOf (numbers : List Nat) : Nat :=
  match numbers with
  | [] => 0
  | n :: rest => rest.foldl max n

/-! ## Records (`src/types/index.ts`) -/

/-- `personalInfo` of a customer (`name`, `email`, `phone`). -/
structure PersonalInfo where
  name : String
  email : String
  phone : String
deriving DecidableEq, Repr

/-- A stored `Customer`: id, personal info and timestamps.  The two postal
addresses and the `sameAsShipping` flag are carried opaquely as they are
never read by the operations under verification. -/
structure Customer where
  id : String
  personalInfo : PersonalInfo
  createdAt : Int
  updatedAt : Int
deriving DecidableEq, Repr

/-- The invoice payment status: `'paid' | 'unpaid'`. -/
inductive InvoiceStatus where
  | paid
  | unpaid
deriving DecidableEq, Repr

/-- A stored `Invoice`: id, human-readable `invoiceNumber`, reference to a
customer, denormalized `total`, status and creation timestamp.  The line
items and dates are not read by the store operations under verification. -/
structure Invoice where
  id : String
  invoiceNumber : String
  customerId : String
  total : ℚ
  status : InvoiceStatus
  createdAt : Int
deriving DecidableEq, Repr

/-! ## The localforage instances

Each store is an association list keyed by record id.  `setItem` upserts:
it replaces the value when the key is present, otherwise appends. -/

/-- `db.setItem(key, value)`: upsert by key. -/
def dbSetItem {α : Type} (db : List (String × α)) (key : String) (value : α) :
    List (String × α) :=
  if db.any (fun kv => kv.1 = key) then
    db.map (fun kv => if kv.1 = key then (key, value) else kv)
  else
    db ++ [(key, value)]

/-- `db.removeItem(key)`. -/
def dbRemoveItem {α : Type} (db : List (String × α)) (key : String) :
    List (String × α) :=
  db.filter (fun kv => ¬ kv.1 = key)

/-- The two collections of the storage service. -/
structure StoreState where
  customers : List (String × Customer)
  invoices : List (String × Invoice)
deriving DecidableEq, Repr

/-- The empty store. -/
def emptyStore : StoreState := ⟨[], []⟩

/-- Sort `b.createdAt - a.createdAt` descending, as the
`sort((a, b) => new Date(b.createdAt).getTime() - new Date(a.createdAt).getTime())`
comparator does (a stable sort, as in modern JS engines). -/
def sortByCreatedDesc {α : Type} (created : α → Int) (l : List α) : List α :=
  l.mergeSort (fun a b => created b ≤ created a)

/-- `getAllCustomers` (fault-free path): read every key's record and sort by
creation timestamp descending.  Date revival is the identity on the `Int`
timestamp model. -/
def getAllCustomers (s : StoreState) : List Customer :=
  sortByCreatedDesc (fun c => c.createdAt) (s.customers.map (fun kv => kv.2))

/-- `getAllInvoices` (fault-free path). -/
def getAllInvoices (s : StoreState) : List Invoice :=
  sortByCreatedDesc (fun i => i.createdAt) (s.invoices.map (fun kv => kv.2))

/-- `createCustomer`: `customersDB.setItem(customer.id, customerToStore)`
(the ISO-string date serialization round-trips on the `Int` model). -/
def createCustomer (s : StoreState) (c : Customer) : StoreState :=
  { s with customers := dbSetItem s.customers c.id c }

/-- `createInvoice`: `invoicesDB.setItem(invoice.id, invoiceToStore)`. -/
def createInvoice (s : StoreState) (i : Invoice) : StoreState :=
  { s with invoices := dbSetItem s.invoices i.id i }

/-- `deleteInvoice`: `invoicesDB.removeItem(id)`. -/
def deleteInvoice (s : StoreState) (id : String) : StoreState :=
  { s with invoices := dbRemoveItem s.invoices id }

/-- `getInvoicesByCustomerId`: filter `getAllInvoices` by `customerId`. -/
def getInvoicesByCustomerId (s : StoreState) (customerId : String) : List Invoice :=
  (getAllInvoices s).filter (fun inv => inv.customerId = customerId)

/-- `deleteCustomer`: remove the customer record, then delete every invoice
returned by `getInvoicesByCustomerId` for the deleted id. -/
def deleteCustomer (s : StoreState) (id : String) : StoreState :=
  let s1 : StoreState := { s with customers := dbRemoveItem s.customers id }
  let toDelete := getInvoicesByCustomerId s1 id
  toDelete.foldl (fun acc inv => deleteInvoice acc inv.id) s1

/-- `checkEmailExists`: some stored customer has the same email ignoring
letter case and an id different from `excludeId` (`undefined` ↦ `none`; in
JS `c.id !== undefined` is true for every string id). -/
def checkEmailExists (s : StoreState) (email : String) (excludeId : Option String) : Bool :=
  (getAllCustomers s).any (fun c =>
    lowercase c.personalInfo.email = lowercase email &&
      match excludeId with
      | some e => c.id ≠ e
      | none => true)

/-- `getNextInvoiceNumber` (fault-free path): extract the numeric suffixes
of all stored invoice numbers, take the maximum (0 when none), and render
`INV-` + (max+1) zero-padded to 5 digits. -/
def getNextInvoiceNumber (s : StoreState) : String :=
  let numbers := (getAllInvoices s).map (fun inv => extractInvNumber inv.invoiceNumber)
  let maxNumber := maxNumberOf numbers
  "INV-" ++ padStart5 (Nat.repr (maxNumber + 1))

/-- `clearAllData`: `customersDB.clear(); invoicesDB.clear()`. -/
def clearAllData (_s : StoreState) : StoreState := emptyStore

/-- The `{ customers, invoices }` bulk payload. -/
structure ExportPayload where
  customers : List Customer
  invoices : List Invoice
deriving DecidableEq, Repr

/-- `exportData`: `{ customers: getAllCustomers(), invoices: getAllInvoices() }`. -/
def exportData (s : StoreState) : ExportPayload :=
  ⟨getAllCustomers s, getAllInvoices s⟩

/-- `importData`: clear both collections, then `createCustomer` each payload
customer in order, then `createInvoice` each payload invoice in order. -/
def importData (s : StoreState) (data : ExportPayload) : StoreState :=
  let s1 := clearAllData s
  let s2 := data.customers.foldl (fun acc c => createCustomer acc c) s1
  data.invoices.foldl (fun acc i => createInvoice acc i) s2

/-! ## Well-formedness of reachable stores

Every write keys a record by its own `id` field, so in any reachable state
the key of an entry is the `id` of the stored record and keys are distinct
(localforage keys are unique). -/

/-- Keys are exactly the stored records' ids, and are distinct. -/
def WFStore (s : StoreState) : Prop :=
  (∀ kv ∈ s.customers, kv.2.id = kv.1) ∧ (s.customers.map (fun kv => kv.1)).Nodup ∧
  (∀ kv ∈ s.invoices, kv.2.id = kv.1) ∧ (s.invoices.map (fun kv => kv.1)).Nodup

instance (s : StoreState) : Decidable (WFStore s) := by
  unfold WFStore
  infer_instance

/-! ## Fault-schedule model of `getAllCustomers` / `getAllInvoices`

`async getAllX() { await this.ensureInitialized(); try { ...keys/getItem
loop...sort } catch { return [] } }`.  `ensureInitialized` sits OUTSIDE the
`try`: a driver fault during the readiness check or the test writes is
re-thrown by `ensureInitialized` and propagates out of `getAllX`.  Faults
raised inside the `try` (by `keys()` or any `getItem`) are caught and turn
into `[]`.  A `FaultyDB` records, for one execution, which driver calls
fault and what the store holds. -/

structure FaultyDB (α : Type) where
  /-- the `ensureInitialized` step (`ready()` / test `setItem`) faults. -/
  initFault : Bool
  /-- `keys()` faults. -/
  keysFault : Bool
  /-- the key list `keys()` returns when it does not fault. -/
  dbKeys : List String
  /-- `getItem(k)` faults. -/
  itemFault : String → Bool
  /-- the record `getItem(k)` returns when it does not fault. -/
  item : String → Option α

/-- The `for (const key of keys) { getItem... }` collection loop; the first
faulting `getItem` aborts it with the exception. -/
def readItems {α : Type} (db : FaultyDB α) : List String → Except Unit (List α)
  | [] => Except.ok []
  | k :: ks =>
    if db.itemFault k then Except.error ()
    else
      match db.item k with
      | some v => (readItems db ks).map (fun vs => v :: vs)
      | none => readItems db ks

/-- `getAllCustomers`/`getAllInvoices` under a fault schedule:
`Except.error ()` models a thrown exception reaching the caller. -/
def getAllM {α : Type} (created : α → Int) (db : FaultyDB α) : Except Unit (List α) :=
  if db.initFault then Except.error ()
  else if db.keysFault then Except.ok []
  else
    match readItems db db.dbKeys with
    | Except.error _ => Except.ok []
    | Except.ok vs => Except.ok (sortByCreatedDesc created vs)

/-- `getAllCustomers` under a fault schedule. -/
def getAllCustomersM (db : FaultyDB Customer) : Except Unit (List Customer) :=
  getAllM (fun c => c.createdAt) db

/-- `getAllInvoices` under a fault schedule. -/
def getAllInvoicesM (db : FaultyDB Invoice) : Except Unit (List Invoice) :=
  getAllM (fun i => i.createdAt) db

/-! ## The bulk-import handler (`handleImportData` in `App.tsx`)

After `JSON.parse`, the handler rejects unless
`data.customers && data.invoices && Array.isArray(data.customers) &&
Array.isArray(data.invoices)`; only then (and after the user confirms) is
`importData(data)` invoked. -/

/-- A parsed JSON value (`JSON.parse` output). -/
inductive Json where
  | null
  | bool (b : Bool)
  | num (q : ℚ)
  | str (s : String)
  | arr (elems : List Json)
  | obj (fields : List (String × Json))

/-- JS property read `j.k`: a field of an object, `undefined` (here `none`)
otherwise. -/
def jsField (j : Json) (key : String) : Option Json :=
  match j with
  | .obj fields =>
    match fields.find? (fun kv => kv.1 = key) with
    | some kv => some kv.2
    | none => none
  | _ => none

/-- JS truthiness of a possibly-`undefined` JSON value. -/
def jsTruthy : Option Json → Bool
  | none => false
  | some .null => false
  | some (.bool b) => b
  | some (.num q) => q ≠ 0
  | some (.str s) => s ≠ ""
  | some (.arr _) => true
  | some (.obj _) => true

/-- `Array.isArray` of a possibly-`undefined` JSON value. -/
def jsIsArray : Option Json → Bool
  | some (.arr _) => true
  | _ => false

/-- The handler's validation gate, mirroring
`!(!data.customers || !data.invoices || !Array.isArray(data.customers) ||
!Array.isArray(data.invoices))`. -/
def validPayload (j : Json) : Bool :=
  !(!jsTruthy (jsField j "customers") || !jsTruthy (jsField j "invoices") ||
    !jsIsArray (jsField j "customers") || !jsIsArray (jsField j "invoices"))

/-- `handleImportData` on an already-parsed payload, with the user's
confirmation taken as given: on a valid payload the store is replaced via
the import routine (abstracted as `decode`, the decoding of the JSON arrays
into records followed by `importData`), and the second component reports
whether `importData` was invoked; on an invalid payload the handler throws
its validation error before touching the store. -/
def handleImportData (decode : Json → StoreState → StoreState)
    (s : StoreState) (j : Json) : StoreState × Bool :=
  if validPayload j then (decode j s, true) else (s, false)

/-! ## Create/delete traces (invoice-number temporality)

A trace interleaves invoice creations (numbered by `getNextInvoiceNumber`
at creation time, as `InvoiceForm.onSubmit` does) and deletions.  The run
additionally records every invoice number ever assigned, in order. -/

/-- One user-level operation on the invoice collection. -/
inductive TraceOp where
  | create (id : String) (customerId : String) (createdAt : Int)
  | del (id : String)

/-- Store plus the history of assigned invoice numbers. -/
structure TraceState where
  store : StoreState
  assigned : List String
deriving DecidableEq, Repr

/-- Run one operation: `create` numbers the new invoice with
`getNextInvoiceNumber` of the current store and stores it (status
`'unpaid'`, total irrelevant to numbering); `del` removes by id. -/
def stepTrace (st : TraceState) : TraceOp → TraceState
  | .create id customerId createdAt =>
    let num := getNextInvoiceNumber st.store
    let inv : Invoice :=
      { id := id, invoiceNumber := num, customerId := customerId,
        total := 0, status := .unpaid, createdAt := createdAt }
    { store := createInvoice st.store inv, assigned := st.assigned ++ [num] }
  | .del id =>
    { st with store := deleteInvoice st.store id }

/-- Run a trace from the empty store. -/
def runTrace (ops : List TraceOp) : TraceState :=
  ops.foldl stepTrace ⟨emptyStore, []⟩

/-! ## Email uniqueness (claims about `checkEmailExists`)

The spec's invariant: no two stored customers have emails that are equal
ignoring letter case. -/

/-- The case-insensitive email uniqueness invariant over a store. -/
def emailInvariant (s : StoreState) : Prop :=
  (s.customers.map (fun kv => lowercase kv.2.personalInfo.email)).Nodup

instance (s : StoreState) : Decidable (emailInvariant s) := by
  unfold emailInvariant
  infer_instance

/-- The guarded creation flow of the customer form: the email is first run
through `checkEmailExists` (with no excluded id) and the submission is
rejected as a duplicate when it reports a hit; only otherwise does the
record reach `createCustomer`.  This composition of the two cited storage
functions is the only place the uniqueness check occurs — `createCustomer`
itself never checks. -/
def createCustomerChecked (s : StoreState) (c : Customer) : Option StoreState :=
  if checkEmailExists s c.personalInfo.email none then none
  else some (createCustomer s c)

/-! ## Concrete fixtures used by witnesses and counterexamples -/

/-- A store holding invoices numbered `INV-00001` .. `INV-00007`, created in
order (equal creation timestamps keep the stored order under the stable
sort). -/
def sevenInvoiceStore : StoreState :=
  (List.range 7).foldl
    (fun s n =>
      createInvoice s
        { id := Nat.repr (n + 1),
          invoiceNumber := "INV-" ++ padStart5 (Nat.repr (n + 1)),
          customerId := "c", total := 0, status := .unpaid, createdAt := 0 })
    emptyStore

/-- A store whose single invoice number does not match `INV-(\d+)`. -/
def noMatchStore : StoreState :=
  ⟨[], [("1", { id := "1", invoiceNumber := "DRAFT-7", customerId := "c",
                total := 0, status := .unpaid, createdAt := 0 })]⟩

/-- A customer record fixture. -/
def mkCustomer (id email : String) (t : Int) : Customer :=
  { id := id, personalInfo := { name := "n", email := email, phone := "p" },
    createdAt := t, updatedAt := t }

/-- An invoice record fixture. -/
def mkInvoice (id number customerId : String) (t : Int) : Invoice :=
  { id := id, invoiceNumber := number, customerId := customerId,
    total := 0, status := .unpaid, createdAt := t }

/-- A store holding one customer with email `a@b.com`. -/
def oneCustomerStore : StoreState :=
  ⟨[("1", mkCustomer "1" "a@b.com" 0)], []⟩

/-- A well-formed store with one customer and two invoices referencing two
different customers. -/
def smallWfStore : StoreState :=
  ⟨[("c1", mkCustomer "c1" "a@b.com" 0)],
   [("i1", mkInvoice "i1" "INV-00001" "c1" 0),
    ("i2", mkInvoice "i2" "INV-00002" "c2" 0)]⟩

/-- A fault schedule whose `ensureInitialized` step faults. -/
def initFaultDB : FaultyDB Customer :=
  ⟨true, false, [], fun _ => false, fun _ => none⟩

/-- A fault-free schedule over one stored customer. -/
def cleanDB : FaultyDB Customer :=
  ⟨false, false, ["1"], fun _ => false,
   fun k => if k = "1" then some (mkCustomer "1" "a@b.com" 0) else none⟩

/-- A fault-free schedule over one stored invoice. -/
def cleanInvDB : FaultyDB Invoice :=
  ⟨false, false, ["1"], fun _ => false,
   fun k => if k = "1" then some (mkInvoice "1" "INV-00001" "c" 0) else none⟩

/-- The operation sequence create, create, delete the second, create:
the fourth operation re-assigns the deleted invoice's number. -/
def reuseTrace : List TraceOp :=
  [.create "1" "c" 1, .create "2" "c" 2, .del "2", .create "3" "c" 3]

/-- A bulk payload whose `customers` field is not an array. -/
def badPayloadJson : Json :=
  .obj [("customers", .str "oops"), ("invoices", .arr [])]

/-- A well-shaped bulk payload. -/
def goodPayloadJson : Json :=
  .obj [("customers", .arr []), ("invoices", .arr [.null])]

/-! ## Helper lemmas -/

theorem foldl_add_eq_sum {α : Type} (f : α → ℚ) :
    ∀ (l : List α) (a : ℚ), l.foldl (fun s x => s + f x) a = a + (l.map f).sum
  | [], a => by simp
  | x :: xs, a => by
    simp only [List.foldl_cons, List.map_cons, List.sum_cons,
      foldl_add_eq_sum f xs]
    ring

/-- A stable sort leaves an already-sorted list unchanged. -/
theorem sortByCreatedDesc_of_sorted {α : Type} (created : α → Int) (l : List α)
    (h : l.Pairwise (fun a b => created b ≤ created a)) :
    sortByCreatedDesc created l = l := by
  apply List.mergeSort_of_sorted
  simpa using h

/-- The sorted view is a permutation of the values. -/
theorem sortByCreatedDesc_perm {α : Type} (created : α → Int) (l : List α) :
    (sortByCreatedDesc created l).Perm l :=
  List.mergeSort_perm l _

theorem getAllInvoices_perm (s : StoreState) :
    (getAllInvoices s).Perm (s.invoices.map (fun kv => kv.2)) :=
  sortByCreatedDesc_perm _ _

theorem getAllCustomers_perm (s : StoreState) :
    (getAllCustomers s).Perm (s.customers.map (fun kv => kv.2)) :=
  sortByCreatedDesc_perm _ _

theorem maxNumberOf_eq_foldl (l : List Nat) : maxNumberOf l = l.foldl max 0 := by
  cases l with
  | nil => rfl
  | cons n rest => simp [maxNumberOf, List.foldl_cons]

theorem maxNumberOf_perm {l₁ l₂ : List Nat} (h : l₁.Perm l₂) :
    maxNumberOf l₁ = maxNumberOf l₂ := by
  rw [maxNumberOf_eq_foldl, maxNumberOf_eq_foldl]
  exact h.foldl_eq' (fun x _ y _ z => by omega) 0

theorem le_foldl_max (a : Nat) (l : List Nat) : a ≤ l.foldl max a := by
  induction l generalizing a with
  | nil => exact Nat.le_refl a
  | cons x xs ih => exact Nat.le_trans (Nat.le_max_left a x) (ih (a.max x))

theorem mem_le_foldl_max {l : List Nat} {n : Nat} (h : n ∈ l) :
    ∀ (a : Nat), n ≤ l.foldl max a := by
  induction l with
  | nil => cases h
  | cons x xs ih =>
    intro a
    rcases List.mem_cons.mp h with rfl | hmem
    · exact Nat.le_trans (Nat.le_max_right a n) (le_foldl_max _ xs)
    · exact ih hmem _

theorem le_maxNumberOf {l : List Nat} {n : Nat} (h : n ∈ l) : n ≤ maxNumberOf l := by
  rw [maxNumberOf_eq_foldl]
  exact mem_le_foldl_max h 0

theorem perm_any_eq {α : Type} {l₁ l₂ : List α} (h : l₁.Perm l₂) (p : α → Bool) :
    l₁.any p = l₂.any p := by
  rw [Bool.eq_iff_iff]
  simp only [List.any_eq_true]
  constructor
  · rintro ⟨x, hx, hpx⟩
    exact ⟨x, h.mem_iff.mp hx, hpx⟩
  · rintro ⟨x, hx, hpx⟩
    exact ⟨x, h.mem_iff.mpr hx, hpx⟩

/-- `getNextInvoiceNumber` expressed over the raw stored collection: the
sorted read view does not change the maximum. -/
theorem getNextInvoiceNumber_eq (s : StoreState) :
    getNextInvoiceNumber s =
      "INV-" ++ padStart5 (Nat.repr
        (maxNumberOf (s.invoices.map
          (fun kv => extractInvNumber kv.2.invoiceNumber)) + 1)) := by
  have hperm : ((getAllInvoices s).map
      (fun inv => extractInvNumber inv.invoiceNumber)).Perm
      (s.invoices.map (fun kv => extractInvNumber kv.2.invoiceNumber)) := by
    have := (getAllInvoices_perm s).map (fun inv => extractInvNumber inv.invoiceNumber)
    simpa [Function.comp] using this
  rw [getNextInvoiceNumber, maxNumberOf_perm hperm]

theorem any_map_eq {α β : Type} (f : α → β) (l : List α) (p : β → Bool) :
    (l.map f).any p = l.any (fun x => p (f x)) := by
  induction l with
  | nil => rfl
  | cons x xs ih => simp [List.any_cons, ih]

/-- `checkEmailExists` expressed over the raw stored collection. -/
theorem checkEmailExists_eq (s : StoreState) (email : String)
    (excludeId : Option String) :
    checkEmailExists s email excludeId =
      s.customers.any (fun kv =>
        lowercase kv.2.personalInfo.email = lowercase email &&
          match excludeId with
          | some e => kv.2.id ≠ e
          | none => true) := by
  rw [checkEmailExists,
    perm_any_eq (getAllCustomers_perm s), any_map_eq]

/-! ## Claim theorems -/

/-- C1: for every sequence of line items, every global-tax mode flag and
every discount configuration, the invoice calculator satisfies
`subtotal = Σ qty·price`, `totalTax = Σ (qty·price)·(effectiveRate/100)`
with the effective rate the global rate in global mode and the item rate
otherwise, `discountAmount = subtotal·(value/100)` for percentage and
`value` for fixed, and `grandTotal = subtotal + totalTax - discountAmount`
exactly; in particular items `[{qty:2, price:50, taxRate:10}]` with fixed
discount 5 give subtotal 100, totalTax 10, discountAmount 5, grandTotal
105. -/
theorem calculateGrandTotal_spec (items : List InvItem) (useGlobalTax : Bool)
    (globalTaxRate : ℚ) (discountType : DiscountType) (discount : ℚ)
    (item : InvItem) :
    calculateSubtotal items = (items.map (fun it => it.quantity * it.price)).sum ∧
    calculateTotalTax useGlobalTax globalTaxRate items =
      (items.map (fun it =>
        it.quantity * it.price *
          (effectiveTaxRate useGlobalTax globalTaxRate it / 100))).sum ∧
    effectiveTaxRate true globalTaxRate item = globalTaxRate ∧
    effectiveTaxRate false globalTaxRate item = item.taxRate ∧
    calculateDiscount DiscountType.percentage discount items =
      calculateSubtotal items * (discount / 100) ∧
    calculateDiscount DiscountType.fixed discount items = discount ∧
    calculateGrandTotal useGlobalTax globalTaxRate discountType discount items =
      calculateSubtotal items + calculateTotalTax useGlobalTax globalTaxRate items -
        calculateDiscount discountType discount items ∧
    calculateSubtotal [⟨2, 50, 10⟩] = 100 ∧
    calculateTotalTax false 0 [⟨2, 50, 10⟩] = 10 ∧
    calculateDiscount DiscountType.fixed 5 [⟨2, 50, 10⟩] = 5 ∧
    calculateGrandTotal false 0 DiscountType.fixed 5 [⟨2, 50, 10⟩] = 105 := by
  refine ⟨?_, ?_, rfl, rfl, rfl, rfl, rfl, ?_, ?_, rfl, ?_⟩
  · simpa using foldl_add_eq_sum (fun it : InvItem => it.quantity * it.price) items 0
  · simpa using foldl_add_eq_sum
      (fun it : InvItem =>
        it.quantity * it.price *
          (effectiveTaxRate useGlobalTax globalTaxRate it / 100)) items 0
  · simp [calculateSubtotal]
    norm_num
  · simp [calculateTotalTax, effectiveTaxRate]
    norm_num
  · simp [calculateGrandTotal, calculateSubtotal, calculateTotalTax,
      calculateDiscount, effectiveTaxRate]
    norm_num

/-- C2: for every store, `getNextInvoiceNumber` returns `INV-` followed by
one plus the maximum numeric suffix extracted (via the `INV-(\d+)` pattern,
defaulting to 0 for non-matching numbers) over the stored invoices,
zero-padded to 5 digits; in particular after creating invoices numbered
`INV-00001` .. `INV-00007` it returns `INV-00008`. -/
theorem getNextInvoiceNumber_spec (s : StoreState) :
    getNextInvoiceNumber s =
      "INV-" ++ padStart5 (Nat.repr
        (maxNumberOf (s.invoices.map
          (fun kv => extractInvNumber kv.2.invoiceNumber)) + 1)) ∧
    getNextInvoiceNumber sevenInvoiceStore = "INV-00008" := by
  constructor
  · exact getNextInvoiceNumber_eq s
  · rw [getNextInvoiceNumber_eq]
    decide

/-- C10: with an empty invoice collection, or when no stored invoice number
matches the `INV-(\d+)` pattern, `getNextInvoiceNumber` returns exactly
`INV-00001`. -/
theorem getNextInvoiceNumber_default (s : StoreState) :
    getNextInvoiceNumber emptyStore = "INV-00001" ∧
    ((∀ kv ∈ s.invoices, extractInvNumber? kv.2.invoiceNumber = none) →
      getNextInvoiceNumber s = "INV-00001") := by
  constructor
  · rw [getNextInvoiceNumber_eq]
    decide
  · intro h
    have hzero : ∀ n ∈ s.invoices.map
        (fun kv => extractInvNumber kv.2.invoiceNumber), n = 0 := by
      intro n hn
      rcases List.mem_map.mp hn with ⟨kv, hkv, rfl⟩
      rw [extractInvNumber, h kv hkv]
      rfl
    have hmax : maxNumberOf (s.invoices.map
        (fun kv => extractInvNumber kv.2.invoiceNumber)) = 0 := by
      rw [maxNumberOf_eq_foldl]
      generalize hl : s.invoices.map
        (fun kv => extractInvNumber kv.2.invoiceNumber) = l at hzero
      clear hl
      induction l with
      | nil => rfl
      | cons x xs ih =>
        have hx : x = 0 := hzero x (List.mem_cons_self x xs)
        subst hx
        simpa using ih (fun n hn => hzero n (List.mem_cons_of_mem _ hn))
    rw [getNextInvoiceNumber_eq, hmax]
    decide

/-- C10 witness: a store whose single invoice number does not match the
pattern yields `INV-00001`. -/
theorem getNextInvoiceNumber_default_witness :
    (∀ kv ∈ noMatchStore.invoices, extractInvNumber? kv.2.invoiceNumber = none) ∧
    getNextInvoiceNumber noMatchStore = "INV-00001" :=
  ⟨by decide, (getNextInvoiceNumber_default noMatchStore).2 (by decide)⟩

/-- C3 counterexample: the write operation `createCustomer` itself performs
no duplicate check.  On a store holding a customer with email `a@b.com`
(satisfying the uniqueness invariant), creating a different-id customer with
email `A@B.COM` is not rejected — the record is stored and the post-state
violates the case-insensitive uniqueness invariant, so the invariant is not
preserved by every write operation. -/
theorem createCustomer_duplicate_email_cex :
    emailInvariant oneCustomerStore ∧
    (mkCustomer "2" "A@B.COM" 1).id ≠ "1" ∧
    createCustomer oneCustomerStore (mkCustomer "2" "A@B.COM" 1) =
      ⟨[("1", mkCustomer "1" "a@b.com" 0), ("2", mkCustomer "2" "A@B.COM" 1)], []⟩ ∧
    ¬ emailInvariant (createCustomer oneCustomerStore (mkCustomer "2" "A@B.COM" 1)) :=
  ⟨by decide, by decide, by decide, by decide⟩

/-- C3 (amended): the duplicate check lives in `checkEmailExists`, which is
case-insensitive and honours the excluded id, and in the form's guarded
creation flow (`createCustomerChecked`), which rejects a submission exactly
when `checkEmailExists` reports a hit; when the guard passes, creating a
fresh-id customer preserves the case-insensitive email uniqueness
invariant.  The storage-level writes themselves (`createCustomer`,
`importData`) perform no check, so the invariant is guaranteed only by the
guarded flow, not by every write operation. -/
theorem checkEmailExists_guarded_create_spec (s : StoreState) (email : String)
    (excludeId : Option String) (c : Customer) :
    (checkEmailExists s email excludeId = true ↔
      ∃ kv ∈ s.customers, lowercase kv.2.personalInfo.email = lowercase email ∧
        ∀ e, excludeId = some e → kv.2.id ≠ e) ∧
    (checkEmailExists s c.personalInfo.email none = true →
      createCustomerChecked s c = none) ∧
    (checkEmailExists s c.personalInfo.email none = false →
      createCustomerChecked s c = some (createCustomer s c) ∧
      (emailInvariant s → c.id ∉ s.customers.map (fun kv => kv.1) →
        emailInvariant (createCustomer s c))) := by
  refine ⟨?_, ?_, ?_⟩
  · rw [checkEmailExists_eq, List.any_eq_true]
    constructor
    · rintro ⟨kv, hkv, hp⟩
      cases excludeId with
      | none =>
        simp only [Bool.and_true, decide_eq_true_eq] at hp
        exact ⟨kv, hkv, hp, fun e he => by cases he⟩
      | some e =>
        simp only [Bool.and_eq_true, decide_eq_true_eq] at hp
        exact ⟨kv, hkv, hp.1, fun e2 he2 => by cases he2; exact hp.2⟩
    · rintro ⟨kv, hkv, heq, hexcl⟩
      refine ⟨kv, hkv, ?_⟩
      cases excludeId with
      | none => simp [heq]
      | some e => simp [heq, hexcl e rfl]
  · intro h
    simp [createCustomerChecked, h]
  · intro h
    refine ⟨by simp [createCustomerChecked, h], ?_⟩
    intro hinv hfresh
    have hfreshB : s.customers.any (fun kv => kv.1 = c.id) = false := by
      rw [List.any_eq_false]
      intro kv hkv
      simp only [decide_eq_true_eq]
      intro hk
      exact hfresh (by rw [← hk]; exact List.mem_map_of_mem _ hkv)
    have happend : createCustomer s c =
        { s with customers := s.customers ++ [(c.id, c)] } := by
      rw [createCustomer, dbSetItem, hfreshB]
      simp
    have hnotin : lowercase c.personalInfo.email ∉
        s.customers.map (fun kv => lowercase kv.2.personalInfo.email) := by
      intro hmem
      rcases List.mem_map.mp hmem with ⟨kv, hkv, hkveq⟩
      rw [checkEmailExists_eq, List.any_eq_false] at h
      have := h kv hkv
      simp only [Bool.and_true, decide_eq_true_eq] at this
      exact this hkveq
    rw [happend]
    have : ({ s with customers := s.customers ++ [(c.id, c)] } :
        StoreState).customers = s.customers ++ [(c.id, c)] := rfl
    rw [emailInvariant, this, List.map_append]
    simp only [List.map_cons, List.map_nil]
    rw [List.nodup_append]
    refine ⟨hinv, by simp, ?_⟩
    intro a ha
    simp only [List.mem_singleton, List.mem_cons, List.not_mem_nil, or_false]
    intro heq
    exact hnotin (heq ▸ ha)

/-- C3 witness for the amended theorem: on a one-customer store, a fresh
customer with an unrelated email passes the guard, is created, and the
uniqueness invariant still holds afterwards. -/
theorem checkEmailExists_guarded_create_spec_witness :
    checkEmailExists oneCustomerStore "x@y.com" none = false ∧
    emailInvariant oneCustomerStore ∧
    "2" ∉ oneCustomerStore.customers.map (fun kv => kv.1) ∧
    createCustomerChecked oneCustomerStore (mkCustomer "2" "x@y.com" 1) =
      some (createCustomer oneCustomerStore (mkCustomer "2" "x@y.com" 1)) ∧
    emailInvariant (createCustomer oneCustomerStore (mkCustomer "2" "x@y.com" 1)) := by
  have hfalse : checkEmailExists oneCustomerStore "x@y.com" none = false := by
    simp only [checkEmailExists_eq]
    decide
  have T := checkEmailExists_guarded_create_spec oneCustomerStore "x@y.com" none
      (mkCustomer "2" "x@y.com" 1)
  exact ⟨hfalse, by decide, by decide, (T.2.2 hfalse).1,
    (T.2.2 hfalse).2 (by decide) (by decide)⟩

theorem readItems_ok {α : Type} (db : FaultyDB α) :
    ∀ ks : List String, (∀ k ∈ ks, db.itemFault k = false) →
      readItems db ks = Except.ok (ks.filterMap db.item) := by
  intro ks
  induction ks with
  | nil => intro _; rfl
  | cons k ks ih =>
    intro h
    rw [readItems]
    rw [h k (List.mem_cons_self k ks)]
    simp only [Bool.false_eq_true, if_false]
    rw [ih (fun k2 hk2 => h k2 (List.mem_cons_of_mem _ hk2))]
    cases hk : db.item k <;> simp [List.filterMap_cons, hk, Except.map]

theorem readItems_error {α : Type} (db : FaultyDB α) :
    ∀ ks : List String, (∃ k ∈ ks, db.itemFault k = true) →
      readItems db ks = Except.error () := by
  intro ks
  induction ks with
  | nil => rintro ⟨k, hk, _⟩; cases hk
  | cons k ks ih =>
    rintro ⟨k2, hk2, hf⟩
    rw [readItems]
    by_cases hk : db.itemFault k = true
    · simp [hk]
    · have : k2 ∈ ks := by
        rcases List.mem_cons.mp hk2 with rfl | h2
        · exact absurd hf hk
        · exact h2
      rw [ih ⟨k2, this, hf⟩]
      simp only [Bool.not_eq_true] at hk
      cases hitem : db.item k <;> simp [hk, hitem, Except.map]

/-- Behaviour of the fault-schedule model of a `getAll` scan, after a
successful initialization step. -/
theorem getAllM_props {α : Type} (created : α → Int) (db : FaultyDB α)
    (h : db.initFault = false) :
    (getAllM created db).isOk = true ∧
    ((db.keysFault = true ∨ ∃ k ∈ db.dbKeys, db.itemFault k = true) →
      getAllM created db = Except.ok []) ∧
    (db.keysFault = false → (∀ k ∈ db.dbKeys, db.itemFault k = false) →
      ∃ l, getAllM created db = Except.ok l ∧
        l.Perm (db.dbKeys.filterMap db.item) ∧
        l.Pairwise (fun a b => created b ≤ created a)) := by
  refine ⟨?_, ?_, ?_⟩
  · rw [getAllM, h]
    simp only [Bool.false_eq_true, if_false]
    by_cases hk : db.keysFault = true
    · simp [hk, Except.isOk, Except.toBool]
    · simp only [Bool.not_eq_true] at hk
      simp only [hk, Bool.false_eq_true, if_false]
      cases hread : readItems db db.dbKeys <;> simp [Except.isOk, Except.toBool]
  · rintro (hk | hfault)
    · rw [getAllM, h]
      simp [hk]
    · rw [getAllM, h]
      simp only [Bool.false_eq_true, if_false]
      by_cases hk : db.keysFault = true
      · simp [hk]
      · simp only [Bool.not_eq_true] at hk
        simp only [hk, Bool.false_eq_true, if_false]
        rw [readItems_error db _ hfault]
  · intro hk hnofault
    rw [getAllM, h, readItems_ok db _ hnofault]
    simp only [hk, Bool.false_eq_true, if_false]
    refine ⟨_, rfl, sortByCreatedDesc_perm created _, ?_⟩
    have hsorted := @List.sorted_mergeSort α
      (fun a b => decide (created b ≤ created a))
      (fun a b c hab hbc => by
        simp only [decide_eq_true_eq] at hab hbc ⊢
        omega)
      (fun a b => by
        simp only [Bool.or_eq_true, decide_eq_true_eq]
        omega)
      (db.dbKeys.filterMap db.item)
    exact hsorted.imp (fun hab => by simpa using hab)

/-- C4 counterexample: a driver fault during the `ensureInitialized` step
(which sits outside the `try`) propagates out of `getAllCustomers` as an
exception instead of producing the empty list, so the functions do throw
when the driver faults during that step. -/
theorem getAllCustomersM_init_fault_cex :
    getAllCustomersM initFaultDB = Except.error () ∧
    ¬ getAllCustomersM initFaultDB = Except.ok [] :=
  ⟨rfl, fun hcontra => by
    rw [show getAllCustomersM initFaultDB = Except.error () from rfl] at hcontra
    exact Except.noConfusion hcontra⟩

/-- C4 (amended): once the initialization step succeeds, `getAllCustomers`
and `getAllInvoices` never throw: a driver fault raised by the key scan or
by any item read is caught and yields the empty list, and on a fault-free
run they return exactly the stored records sorted by creation timestamp
descending.  A driver fault during the initialization step itself, however,
escapes to the caller (see the counterexample). -/
theorem getAll_catch_spec (dbc : FaultyDB Customer) (dbi : FaultyDB Invoice)
    (hc : dbc.initFault = false) (hi : dbi.initFault = false) :
    ((getAllCustomersM dbc).isOk = true ∧ (getAllInvoicesM dbi).isOk = true) ∧
    ((dbc.keysFault = true ∨ ∃ k ∈ dbc.dbKeys, dbc.itemFault k = true) →
      getAllCustomersM dbc = Except.ok []) ∧
    ((dbi.keysFault = true ∨ ∃ k ∈ dbi.dbKeys, dbi.itemFault k = true) →
      getAllInvoicesM dbi = Except.ok []) ∧
    (dbc.keysFault = false → (∀ k ∈ dbc.dbKeys, dbc.itemFault k = false) →
      ∃ l, getAllCustomersM dbc = Except.ok l ∧
        l.Perm (dbc.dbKeys.filterMap dbc.item) ∧
        l.Pairwise (fun a b => b.createdAt ≤ a.createdAt)) ∧
    (dbi.keysFault = false → (∀ k ∈ dbi.dbKeys, dbi.itemFault k = false) →
      ∃ l, getAllInvoicesM dbi = Except.ok l ∧
        l.Perm (dbi.dbKeys.filterMap dbi.item) ∧
        l.Pairwise (fun a b => b.createdAt ≤ a.createdAt)) := by
  have Hc := getAllM_props (fun c : Customer => c.createdAt) dbc hc
  have Hi := getAllM_props (fun i : Invoice => i.createdAt) dbi hi
  exact ⟨⟨Hc.1, Hi.1⟩, Hc.2.1, Hi.2.1, Hc.2.2, Hi.2.2⟩

/-- C4 witness: on fault-free one-record schedules the scans succeed. -/
theorem getAll_catch_spec_witness :
    cleanDB.initFault = false ∧ cleanInvDB.initFault = false ∧
    (getAllCustomersM cleanDB).isOk = true ∧
    (getAllInvoicesM cleanInvDB).isOk = true :=
  ⟨rfl, rfl, (getAll_catch_spec cleanDB cleanInvDB rfl rfl).1.1,
    (getAll_catch_spec cleanDB cleanInvDB rfl rfl).1.2⟩

theorem foldl_deleteInvoice (L : List Invoice) (t : StoreState) :
    (L.foldl (fun acc inv => deleteInvoice acc inv.id) t).customers = t.customers ∧
    (L.foldl (fun acc inv => deleteInvoice acc inv.id) t).invoices =
      t.invoices.filter (fun kv => decide (∀ inv ∈ L, ¬ kv.1 = inv.id)) := by
  induction L generalizing t with
  | nil =>
    refine ⟨rfl, ?_⟩
    simp
  | cons inv L ih =>
    rw [List.foldl_cons]
    refine ⟨(ih (deleteInvoice t inv.id)).1, ?_⟩
    rw [(ih (deleteInvoice t inv.id)).2]
    have hstep : (deleteInvoice t inv.id).invoices =
        t.invoices.filter (fun kv => ¬ kv.1 = inv.id) := rfl
    rw [hstep, List.filter_filter]
    apply List.filter_congr
    intro kv _
    rw [Bool.eq_iff_iff]
    simp [List.forall_mem_cons, and_comm]

/-- Mapping the value component commutes with filtering on the value. -/
theorem map_snd_filter {α : Type} (p : α → Bool) (l : List (String × α)) :
    (l.filter (fun kv => p kv.2)).map (fun kv => kv.2) =
      (l.map (fun kv => kv.2)).filter p := by
  induction l with
  | nil => rfl
  | cons kv l ih => by_cases h : p kv.2 <;> simp [h, ih]

/-- C5: deleting a customer removes the customer record and every invoice
whose `customerId` equals the deleted id, keeps every other customer and
invoice, and a subsequent `getAllInvoices` returns exactly the surviving
invoices (those referencing other customers). -/
theorem deleteCustomer_cascade (s : StoreState) (id : String) (hwf : WFStore s) :
    (deleteCustomer s id).customers = s.customers.filter (fun kv => ¬ kv.1 = id) ∧
    (deleteCustomer s id).invoices =
      s.invoices.filter (fun kv => ¬ kv.2.customerId = id) ∧
    (∀ inv ∈ getAllInvoices (deleteCustomer s id), ¬ inv.customerId = id) ∧
    (getAllInvoices (deleteCustomer s id)).Perm
      ((getAllInvoices s).filter (fun inv => ¬ inv.customerId = id)) := by
  rcases hwf with ⟨_hcid, _hcnd, hiid, hind⟩
  have hdel : deleteCustomer s id =
      (getInvoicesByCustomerId
          { s with customers := dbRemoveItem s.customers id } id).foldl
        (fun acc inv => deleteInvoice acc inv.id)
        { s with customers := dbRemoveItem s.customers id } := rfl
  have hmemToDelete : ∀ inv : Invoice,
      inv ∈ getInvoicesByCustomerId
          { s with customers := dbRemoveItem s.customers id } id ↔
        (∃ kv ∈ s.invoices, kv.2 = inv) ∧ inv.customerId = id := by
    intro inv
    have hsame : getAllInvoices { s with customers := dbRemoveItem s.customers id } =
        getAllInvoices s := rfl
    rw [getInvoicesByCustomerId, hsame, List.mem_filter,
      (getAllInvoices_perm s).mem_iff, List.mem_map]
    simp
  obtain ⟨hcust, hinvs⟩ := foldl_deleteInvoice
    (getInvoicesByCustomerId { s with customers := dbRemoveItem s.customers id } id)
    { s with customers := dbRemoveItem s.customers id }
  have hinvoices : (deleteCustomer s id).invoices =
      s.invoices.filter (fun kv => ¬ kv.2.customerId = id) := by
    rw [hdel, hinvs]
    apply List.filter_congr
    intro kv hkv
    rw [Bool.eq_iff_iff]
    simp only [decide_eq_true_eq]
    constructor
    · intro hall hcid2
      have hmem : kv.2 ∈ getInvoicesByCustomerId
          { s with customers := dbRemoveItem s.customers id } id :=
        (hmemToDelete kv.2).mpr ⟨⟨kv, hkv, rfl⟩, hcid2⟩
      exact hall kv.2 hmem (hiid kv hkv).symm
    · intro hne inv hmem hkeq
      rcases (hmemToDelete inv).mp hmem with ⟨⟨kv2, hkv2, rfl⟩, hcid2⟩
      have hkeys : kv.1 = kv2.1 := by rw [hkeq, hiid kv2 hkv2]
      have : kv = kv2 := List.inj_on_of_nodup_map hind hkv hkv2 hkeys
      exact hne (this ▸ hcid2)
  refine ⟨?_, hinvoices, ?_, ?_⟩
  · rw [hdel, hcust]
    rfl
  · intro inv hmem
    have : inv ∈ (deleteCustomer s id).invoices.map (fun kv => kv.2) :=
      (getAllInvoices_perm _).mem_iff.mp hmem
    rcases List.mem_map.mp this with ⟨kv, hkv, rfl⟩
    rw [hinvoices] at hkv
    have := (List.mem_filter.mp hkv).2
    simpa using this
  · have h1 : (getAllInvoices (deleteCustomer s id)).Perm
        ((deleteCustomer s id).invoices.map (fun kv => kv.2)) :=
      getAllInvoices_perm _
    rw [hinvoices,
      map_snd_filter (fun i => decide ¬ i.customerId = id) s.invoices] at h1
    exact h1.trans (((getAllInvoices_perm s).filter _).symm)

/-- C5 witness: on a two-invoice well-formed store, deleting customer `c1`
removes exactly the invoice referencing `c1`. -/
theorem deleteCustomer_cascade_witness :
    WFStore smallWfStore ∧
    (deleteCustomer smallWfStore "c1").invoices =
      smallWfStore.invoices.filter (fun kv => ¬ kv.2.customerId = "c1") :=
  ⟨by decide, (deleteCustomer_cascade smallWfStore "c1" (by decide)).2.1⟩

theorem foldl_createCustomer_split (L : List Customer) (t : StoreState) :
    (L.foldl (fun acc c => createCustomer acc c) t).customers =
      L.foldl (fun db c => dbSetItem db c.id c) t.customers ∧
    (L.foldl (fun acc c => createCustomer acc c) t).invoices = t.invoices := by
  induction L generalizing t with
  | nil => exact ⟨rfl, rfl⟩
  | cons c L ih => exact ⟨(ih (createCustomer t c)).1, (ih (createCustomer t c)).2⟩

theorem foldl_createInvoice_split (L : List Invoice) (t : StoreState) :
    (L.foldl (fun acc i => createInvoice acc i) t).invoices =
      L.foldl (fun db i => dbSetItem db i.id i) t.invoices ∧
    (L.foldl (fun acc i => createInvoice acc i) t).customers = t.customers := by
  induction L generalizing t with
  | nil => exact ⟨rfl, rfl⟩
  | cons i L ih => exact ⟨(ih (createInvoice t i)).1, (ih (createInvoice t i)).2⟩

/-- Upserting records with pairwise-distinct fresh ids appends them in
order. -/
theorem dbSetItem_fold_fresh {α : Type} (idOf : α → String) :
    ∀ (L : List α) (db : List (String × α)),
      (∀ r ∈ L, idOf r ∉ db.map (fun kv => kv.1)) →
      (L.map idOf).Nodup →
      L.foldl (fun acc r => dbSetItem acc (idOf r) r) db =
        db ++ L.map (fun r => (idOf r, r)) := by
  intro L
  induction L with
  | nil =>
    intro db _ _
    simp
  | cons r L ih =>
    intro db hfresh hnd
    have hnd2 : (idOf r :: L.map idOf).Nodup := by
      rw [List.map_cons] at hnd
      exact hnd
    have hnds := List.nodup_cons.mp hnd2
    have hrfresh : db.any (fun kv => kv.1 = idOf r) = false := by
      rw [List.any_eq_false]
      intro kv hkv
      simp only [decide_eq_true_eq]
      intro hk
      exact hfresh r (List.mem_cons_self r L) (hk ▸ List.mem_map_of_mem _ hkv)
    have hstep : dbSetItem db (idOf r) r = db ++ [(idOf r, r)] := by
      rw [dbSetItem, hrfresh]
      simp
    have hfresh2 : ∀ r2 ∈ L, idOf r2 ∉ (db ++ [(idOf r, r)]).map (fun kv => kv.1) := by
      intro r2 hr2 hmem
      rw [List.map_append] at hmem
      rcases List.mem_append.mp hmem with h1 | h2
      · exact hfresh r2 (List.mem_cons_of_mem _ hr2) h1
      · simp only [List.map_cons, List.map_nil, List.mem_singleton] at h2
        exact hnds.1 (h2 ▸ List.mem_map_of_mem idOf hr2)
    rw [List.foldl_cons, hstep, ih (db ++ [(idOf r, r)]) hfresh2 hnds.2,
      List.append_assoc]
    simp

/-- The two collections produced by `importData`: both are wiped and then
rebuilt from the payload records keyed by their own ids. -/
theorem importData_components (s : StoreState) (payload : ExportPayload)
    (hc : (payload.customers.map (fun c => c.id)).Nodup)
    (hi : (payload.invoices.map (fun i => i.id)).Nodup) :
    (importData s payload).customers =
      payload.customers.map (fun c => (c.id, c)) ∧
    (importData s payload).invoices =
      payload.invoices.map (fun i => (i.id, i)) := by
  have hrw : importData s payload =
      payload.invoices.foldl (fun acc i => createInvoice acc i)
        (payload.customers.foldl (fun acc c => createCustomer acc c) emptyStore) := rfl
  obtain ⟨hc1, hc2⟩ := foldl_createCustomer_split payload.customers emptyStore
  obtain ⟨hi1, hi2⟩ :=
    foldl_createInvoice_split payload.invoices
      (payload.customers.foldl (fun acc c => createCustomer acc c) emptyStore)
  constructor
  · rw [hrw, hi2, hc1]
    have := dbSetItem_fold_fresh (fun c : Customer => c.id) payload.customers
      emptyStore.customers (by simp [emptyStore]) hc
    simpa [emptyStore] using this
  · rw [hrw, hi1, hc2]
    have := dbSetItem_fold_fresh (fun i : Invoice => i.id) payload.invoices
      emptyStore.invoices (by simp [emptyStore]) hi
    simpa [emptyStore] using this

/-- C7: `importData` is a full destructive replace: it wipes both
collections first and then re-inserts every payload record, so the
post-state collections contain exactly the payload's records (keyed by
their ids) and no record of the prior state survives — the result does not
depend on the prior state at all. -/
theorem importData_replaces (s : StoreState) (payload : ExportPayload)
    (hc : (payload.customers.map (fun c => c.id)).Nodup)
    (hi : (payload.invoices.map (fun i => i.id)).Nodup) :
    (importData s payload).customers =
      payload.customers.map (fun c => (c.id, c)) ∧
    (importData s payload).invoices =
      payload.invoices.map (fun i => (i.id, i)) ∧
    importData s payload = importData emptyStore payload := by
  obtain ⟨h1, h2⟩ := importData_components s payload hc hi
  exact ⟨h1, h2, rfl⟩

/-- C7 witness: importing a one-customer/one-invoice payload into a
non-empty store leaves exactly the payload records. -/
theorem importData_replaces_witness :
    (((ExportPayload.mk [mkCustomer "c9" "z@z.com" 5]
        [mkInvoice "i9" "INV-00009" "c9" 5]).customers.map
          (fun c => c.id)).Nodup) ∧
    (importData smallWfStore
        (ExportPayload.mk [mkCustomer "c9" "z@z.com" 5]
          [mkInvoice "i9" "INV-00009" "c9" 5])).customers =
      [("c9", mkCustomer "c9" "z@z.com" 5)] :=
  ⟨by decide,
    (importData_replaces smallWfStore
      (ExportPayload.mk [mkCustomer "c9" "z@z.com" 5]
        [mkInvoice "i9" "INV-00009" "c9" 5]) (by decide) (by decide)).1⟩

/-- C6: round-trip — importing the export of any well-formed store
reproduces exactly the same customer and invoice records (same keys, same
field values, as a permutation of the stored entries). -/
theorem importData_exportData_roundtrip (s : StoreState) (hwf : WFStore s) :
    ((importData s (exportData s)).customers).Perm s.customers ∧
    ((importData s (exportData s)).invoices).Perm s.invoices := by
  rcases hwf with ⟨hcid, hcnd, hiid, hind⟩
  have hpc := getAllCustomers_perm s
  have hpi := getAllInvoices_perm s
  have hidsc : ((getAllCustomers s).map (fun c => c.id)).Perm
      (s.customers.map (fun kv => kv.1)) := by
    refine (hpc.map (fun c => c.id)).trans ?_
    rw [List.map_map]
    have heq : s.customers.map ((fun c : Customer => c.id) ∘ (fun kv => kv.2)) =
        s.customers.map (fun kv => kv.1) :=
      List.map_congr_left (fun kv hkv => hcid kv hkv)
    rw [heq]
  have hidsi : ((getAllInvoices s).map (fun i => i.id)).Perm
      (s.invoices.map (fun kv => kv.1)) := by
    refine (hpi.map (fun i => i.id)).trans ?_
    rw [List.map_map]
    have heq : s.invoices.map ((fun i : Invoice => i.id) ∘ (fun kv => kv.2)) =
        s.invoices.map (fun kv => kv.1) :=
      List.map_congr_left (fun kv hkv => hiid kv hkv)
    rw [heq]
  have hndc : ((getAllCustomers s).map (fun c => c.id)).Nodup :=
    hidsc.nodup_iff.mpr hcnd
  have hndi : ((getAllInvoices s).map (fun i => i.id)).Nodup :=
    hidsi.nodup_iff.mpr hind
  obtain ⟨h1, h2⟩ := importData_components s (exportData s) hndc hndi
  have hpairc : (s.customers.map (fun kv => kv.2)).map
      (fun c : Customer => (c.id, c)) = s.customers := by
    rw [List.map_map]
    refine ((List.map_congr_left ?_).trans (List.map_id s.customers))
    intro kv hkv
    show ((kv.2).id, kv.2) = kv
    rw [hcid kv hkv]
  have hpairi : (s.invoices.map (fun kv => kv.2)).map
      (fun i : Invoice => (i.id, i)) = s.invoices := by
    rw [List.map_map]
    refine ((List.map_congr_left ?_).trans (List.map_id s.invoices))
    intro kv hkv
    show ((kv.2).id, kv.2) = kv
    rw [hiid kv hkv]
  constructor
  · rw [h1]
    have hch := hpc.map (fun c : Customer => (c.id, c))
    rw [hpairc] at hch
    exact hch
  · rw [h2]
    have hih := hpi.map (fun i : Invoice => (i.id, i))
    rw [hpairi] at hih
    exact hih

/-- C6 witness: the round-trip on a concrete well-formed store. -/
theorem importData_exportData_roundtrip_witness :
    WFStore smallWfStore ∧
    ((importData smallWfStore (exportData smallWfStore)).customers).Perm
      smallWfStore.customers :=
  ⟨by decide, (importData_exportData_roundtrip smallWfStore (by decide)).1⟩

/-- C8 counterexample: invoice numbers are not monotonically increasing
across all invoices ever created.  `getNextInvoiceNumber` scans only the
currently stored invoices, so after creating `INV-00001` and `INV-00002`
and deleting the second, the next creation is assigned `INV-00002` again —
its numeric suffix equals (is not strictly greater than) the suffix
assigned earlier to the now-deleted invoice. -/
theorem invoiceNumber_not_monotone_cex :
    (runTrace reuseTrace).assigned = ["INV-00001", "INV-00002", "INV-00002"] ∧
    extractInvNumber ((runTrace reuseTrace).assigned.getD 2 "") =
      extractInvNumber ((runTrace reuseTrace).assigned.getD 1 "") := by
  have hrun : runTrace reuseTrace =
      ⟨⟨[], [("1", { id := "1", invoiceNumber := "INV-00001", customerId := "c",
                     total := 0, status := .unpaid, createdAt := 1 }),
             ("3", { id := "3", invoiceNumber := "INV-00002", customerId := "c",
                     total := 0, status := .unpaid, createdAt := 3 })]⟩,
       ["INV-00001", "INV-00002", "INV-00002"]⟩ := by
    rw [runTrace, reuseTrace]
    rw [List.foldl_cons, List.foldl_cons, List.foldl_cons, List.foldl_cons,
      List.foldl_nil]
    rw [stepTrace, getNextInvoiceNumber_eq]
    norm_num
    rw [stepTrace, getNextInvoiceNumber_eq]
    rw [stepTrace]
    rw [stepTrace, getNextInvoiceNumber_eq]
    norm_num
    decide
  rw [hrun]
  exact ⟨rfl, rfl⟩

/-- C8 (amended): the suffix encoded in the number returned by
`getNextInvoiceNumber` is strictly greater than the extracted suffix of
every invoice *currently stored*; monotonicity does not extend to invoices
that have been deleted (see the counterexample). -/
theorem nextInvoiceNumber_gt_current (s : StoreState) (inv : Invoice)
    (h : ∃ kv ∈ s.invoices, kv.2 = inv) :
    extractInvNumber inv.invoiceNumber <
      maxNumberOf (s.invoices.map
        (fun kv => extractInvNumber kv.2.invoiceNumber)) + 1 ∧
    getNextInvoiceNumber s =
      "INV-" ++ padStart5 (Nat.repr
        (maxNumberOf (s.invoices.map
          (fun kv => extractInvNumber kv.2.invoiceNumber)) + 1)) := by
  constructor
  · rcases h with ⟨kv, hkv, rfl⟩
    have hmem : extractInvNumber kv.2.invoiceNumber ∈
        s.invoices.map (fun kv => extractInvNumber kv.2.invoiceNumber) :=
      List.mem_map_of_mem _ hkv
    exact Nat.lt_succ_of_le (le_maxNumberOf hmem)
  · exact getNextInvoiceNumber_eq s

/-- C8 witness: on a store holding `INV-00001` and `INV-00002`, the next
number encodes suffix 3, strictly greater than the stored suffix 2. -/
theorem nextInvoiceNumber_gt_current_witness :
    (∃ kv ∈ smallWfStore.invoices, kv.2 = mkInvoice "i2" "INV-00002" "c2" 0) ∧
    extractInvNumber (mkInvoice "i2" "INV-00002" "c2" 0).invoiceNumber <
      maxNumberOf (smallWfStore.invoices.map
        (fun kv => extractInvNumber kv.2.invoiceNumber)) + 1 :=
  ⟨by decide,
    (nextInvoiceNumber_gt_current smallWfStore
      (mkInvoice "i2" "INV-00002" "c2" 0) (by decide)).1⟩

theorem jsTruthy_of_isArray {o : Option Json} (h : jsIsArray o = true) :
    jsTruthy o = true := by
  cases o with
  | none => cases h
  | some j => cases j <;> first | rfl | cases h

/-- C9: the bulk-import handler invokes `importData` exactly for payloads
whose `customers` and `invoices` fields are both arrays; for any other
payload it raises its validation error before any mutation — the store is
left unchanged and `importData` is never invoked. -/
theorem handleImportData_validation (decode : Json → StoreState → StoreState)
    (s : StoreState) (j : Json) :
    (validPayload j = true ↔
      (jsIsArray (jsField j "customers") = true ∧
        jsIsArray (jsField j "invoices") = true)) ∧
    (validPayload j = false → handleImportData decode s j = (s, false)) ∧
    (validPayload j = true → handleImportData decode s j = (decode j s, true)) := by
  refine ⟨?_, ?_, ?_⟩
  · rw [validPayload]
    constructor
    · intro h
      rw [Bool.not_eq_true'] at h
      simp only [Bool.or_eq_false_iff] at h
      have hC := h.1.2
      have hD := h.2
      rw [Bool.not_eq_false'] at hC hD
      exact ⟨hC, hD⟩
    · rintro ⟨h1, h2⟩
      simp [h1, h2, jsTruthy_of_isArray h1, jsTruthy_of_isArray h2]
  · intro h
    simp [handleImportData, h]
  · intro h
    simp [handleImportData, h]

/-- C9 witness: a payload whose `customers` field is a string is rejected
with the store untouched; a well-shaped payload reaches the import. -/
theorem handleImportData_validation_witness :
    validPayload badPayloadJson = false ∧
    handleImportData (fun _ t => t) smallWfStore badPayloadJson =
      (smallWfStore, false) ∧
    validPayload goodPayloadJson = true ∧
    handleImportData (fun _ t => t) smallWfStore goodPayloadJson =
      (smallWfStore, true) :=
  ⟨by decide,
    (handleImportData_validation (fun _ t => t) smallWfStore badPayloadJson).2.1
      (by decide),
    by decide,
    (handleImportData_validation (fun _ t => t) smallWfStore goodPayloadJson).2.2
      (by decide)⟩

end Billing
